import Mathlib

/-!
Verification development for the mixtape repository: an in-memory catalog of
users, songs and playlists (`DataStore`), mutated by a batch of commands
(`CommandProcessor`).  The Go source is embedded shallowly: Go maps become
association lists, Go `int` becomes `Int` with explicit 64-bit wraparound at
the two sites where the source increments `nextPlaylistId`, and Go runtime
panics (out-of-range slice accesses) become `Option.none`.
-/

set_option maxHeartbeats 1000000

/-- Entity record: `type User struct { Id, Name string }`. -/
structure User where
  id : String
  name : String
deriving DecidableEq, Repr

/-- Entity record: `type Playlist struct { Id, UserId string; SongIds []string }`. -/
structure Playlist where
  id : String
  userId : String
  songIds : List String
deriving DecidableEq, Repr

/-- Entity record: `type Song struct { Id, Artist, Title string }`. -/
structure Song where
  id : String
  artist : String
  title : String
deriving DecidableEq, Repr

/-- Shallow model of a Go `map[string]int`: an association list in which a key
occurs at most once (assignment removes any previous binding). -/
abbrev Smap : Type := List (String × Nat)

/-- Go map read `m[k]`: `none` models `ok = false`. -/
def mapLookup (m : Smap) (k : String) : Option Nat :=
  match m with
  | [] => none
  | (k₀, v) :: rest => if k₀ = k then some v else mapLookup rest k

/-- Go `delete(m, k)`. -/
def mapDelete (m : Smap) (k : String) : Smap :=
  List.filter (fun e => e.1 != k) m

/-- Go map assignment `m[k] = v`. -/
def mapInsert (m : Smap) (k : String) (v : Nat) : Smap :=
  (k, v) :: mapDelete m k

/-- Signed 64-bit maximum, the upper range bound of Go's `int`. -/
def int64Max : Int := 9223372036854775807

/-- Signed 64-bit minimum, the lower range bound of Go's `int`. -/
def int64Min : Int := -9223372036854775808

/-- Wraparound of Go `int` (two's-complement, 64-bit) arithmetic. -/
def wrap64 (n : Int) : Int :=
  (n + 9223372036854775808) % 18446744073709551616 - 9223372036854775808

/-- Decimal digit character for `d < 10`, as produced by `strconv.Itoa`. -/
def digitChar (d : Nat) : Char := Char.ofNat (48 + d)

/-- Accumulating decimal parse of a character list; `none` on a non-digit.
Models the digit loop inside `strconv.Atoi`. -/
def digitsToNatAux (a : Nat) : List Char → Option Nat
  | [] => some a
  | c :: rest =>
    if 48 ≤ c.toNat ∧ c.toNat ≤ 57 then digitsToNatAux (a * 10 + (c.toNat - 48)) rest
    else none

/-- Decimal parse of a non-empty all-digit character list. -/
def digitsToNat (cs : List Char) : Option Nat :=
  match cs with
  | [] => none
  | _ :: _ => digitsToNatAux 0 cs

/-- Model of Go `strconv.Atoi` (`ParseInt(s, 10, 64)`): optional single sign,
then one or more decimal digits, value within the signed 64-bit range;
`none` models a returned error (syntax or range). -/
def strconvAtoi (s : String) : Option Int :=
  match s.data with
  | [] => none
  | c :: rest =>
    if c = '+' then
      match digitsToNat rest with
      | some n => if (n : Int) ≤ int64Max then some (n : Int) else none
      | none => none
    else if c = '-' then
      match digitsToNat rest with
      | some n => if int64Min ≤ -(n : Int) then some (-(n : Int)) else none
      | none => none
    else
      match digitsToNat (c :: rest) with
      | some n => if (n : Int) ≤ int64Max then some (n : Int) else none
      | none => none

/-- Digits of `n`, most significant first, prepended to `acc`; structural on a
fuel argument (`fuel > n` suffices for full evaluation). -/
def natDigitsGo : Nat → Nat → List Char → List Char
  | 0, _, acc => acc
  | fuel + 1, n, acc =>
    if n < 10 then digitChar n :: acc
    else natDigitsGo fuel (n / 10) (digitChar (n % 10) :: acc)

/-- Decimal rendering of a natural number. -/
def natToString (n : Nat) : String := String.mk (natDigitsGo (n + 1) n [])

/-- Model of Go `strconv.Itoa` on a (possibly negative) `int` value. -/
def intToString (n : Int) : String :=
  if n < 0 then "-" ++ natToString n.natAbs else natToString n.toNat

/-- The aggregate `DataStore` struct: three entity collections, the three
id-to-position lookup tables, and the playlist id counter. -/
structure DataStore where
  users : List User
  playlists : List Playlist
  songs : List Song
  userMap : Smap
  playlistMap : Smap
  songMap : Smap
  nextPlaylistId : Int
deriving DecidableEq, Repr

instance : Inhabited DataStore := ⟨⟨[], [], [], [], [], [], 0⟩⟩

/-- One indexing loop of `buildLookupTables`: `for i, x := range xs { m[x.Id] = i }`. -/
def buildIndexAux (getId : α → String) : List α → Nat → Smap → Smap
  | [], _, m => m
  | x :: rest, i, m => buildIndexAux getId rest (i + 1) (mapInsert m (getId x) i)

/-- The playlist loop of `buildLookupTables`: indexes each playlist, parses its
id with `strconv.Atoi` (aborting with the error on failure), and tracks the
maximum parsed id. -/
def playlistTablesAux : List Playlist → Nat → Smap → Int → Option (Smap × Int)
  | [], _, m, maxId => some (m, maxId)
  | p :: rest, i, m, maxId =>
    match strconvAtoi p.id with
    | none => none
    | some intId =>
        playlistTablesAux rest (i + 1) (mapInsert m p.id i)
          (if intId > maxId then intId else maxId)

/-- Store construction from decoded snapshot collections: `buildLookupTables`
applied to the unmarshalled `DataStore`.  `none` models the returned
`MalformedIdentifier` (Atoi) error, which aborts construction. -/
def newDataStore (users : List User) (playlists : List Playlist) (songs : List Song) :
    Option DataStore :=
  match playlistTablesAux playlists 0 [] 0 with
  | none => none
  | some (pm, maxId) =>
    some { users := users, playlists := playlists, songs := songs,
           userMap := buildIndexAux User.id users 0 [],
           playlistMap := pm,
           songMap := buildIndexAux Song.id songs 0 [],
           nextPlaylistId := wrap64 (maxId + 1) }

/-- Store-level error kinds (the source uses `fmt.Errorf` messages; the spec
names them as listed here). -/
inductive StoreErr where
  | unknownUser
  | emptyPlaylist
  | unknownSong
  | unknownPlaylist
deriving DecidableEq, Repr

deriving instance DecidableEq for Except

/-- `RemovePlaylist`: swap-remove of the playlist at the indexed position.
The resulting `Bool` is `true` iff a playlist was removed; `none` models a Go
panic (slice index out of range, possible when the index holds a stale
out-of-range position). -/
def removePlaylist (ds : DataStore) (id : String) : Option (Bool × DataStore) :=
  match mapLookup ds.playlistMap id with
  | none => some (false, ds)
  | some targetIdx =>
    match ds.playlists[ds.playlists.length - 1]? with
    | none => none
    | some lastPlaylist =>
      if targetIdx < ds.playlists.length then
        some (true, { ds with
          playlists := (ds.playlists.set targetIdx lastPlaylist).take (ds.playlists.length - 1),
          playlistMap := mapInsert (mapDelete ds.playlistMap id) lastPlaylist.id targetIdx })
      else none

/-- `AddNewPlaylist`: validates user, non-emptiness, and each song id (in that
order, first failure winning), then allocates `nextPlaylistId` (incrementing it
with Go `int` wraparound), appends the new playlist (holding a copy of the
caller's song-id slice) and registers its position.  The paired `DataStore` is
the receiver's state after the call. -/
def addNewPlaylist (ds : DataStore) (userId : String) (songIds : List String) :
    Except StoreErr String × DataStore :=
  if (mapLookup ds.userMap userId).isNone then (Except.error StoreErr.unknownUser, ds)
  else if songIds.length = 0 then (Except.error StoreErr.emptyPlaylist, ds)
  else if songIds.any (fun s => (mapLookup ds.songMap s).isNone) then
    (Except.error StoreErr.unknownSong, ds)
  else
    let newId := intToString ds.nextPlaylistId
    let newPlaylist : Playlist := ⟨newId, userId, songIds⟩
    let playlists := ds.playlists ++ [newPlaylist]
    (Except.ok newId,
      { ds with nextPlaylistId := wrap64 (ds.nextPlaylistId + 1),
                playlists := playlists,
                playlistMap := mapInsert ds.playlistMap newId (playlists.length - 1) })

/-- `AddSongToPlaylist`: validates the song id, then the playlist id, then
appends the song id to the indexed playlist's `SongIds`.  `none` models a Go
panic on an out-of-range indexed position. -/
def addSongToPlaylist (ds : DataStore) (playlistId : String) (songId : String) :
    Option (Option StoreErr × DataStore) :=
  if (mapLookup ds.songMap songId).isNone then some (some StoreErr.unknownSong, ds)
  else
    match mapLookup ds.playlistMap playlistId with
    | none => some (some StoreErr.unknownPlaylist, ds)
    | some playlistIndex =>
      match ds.playlists[playlistIndex]? with
      | none => none
      | some p =>
        some (none, { ds with
          playlists := ds.playlists.set playlistIndex { p with songIds := p.songIds ++ [songId] } })

/-- `generatePlaylistId`: returns the decimal form of `nextPlaylistId` and
increments the counter (Go `int` wraparound). -/
def generatePlaylistId (ds : DataStore) : String × DataStore :=
  (intToString ds.nextPlaylistId, { ds with nextPlaylistId := wrap64 (ds.nextPlaylistId + 1) })

/-- Recognized command name `add-playlist`. -/
def ADD_PLAYLIST : String := "add-playlist"

/-- Recognized command name `add-song-to-playlist`. -/
def ADD_SONG_TO_PLAYLIST : String := "add-song-to-playlist"

/-- Recognized command name `rm-playlist`. -/
def REMOVE_PLAYLIST : String := "rm-playlist"

/-- Error produced by one command handler: an arity violation (checked before
the store is consulted) or a wrapped store error. -/
inductive HandlerErr where
  | arity
  | store (e : StoreErr)
deriving DecidableEq, Repr

/-- Error recorded for one raw command by `ProcessCommand`. -/
inductive CmdErr where
  | emptyCommand
  | unknownCommand (token : String)
  | failed (command : List String) (e : HandlerErr)
deriving DecidableEq, Repr

/-- Handler for `add-playlist`: requires `len(command) >= 3`, then delegates to
`AddNewPlaylist` with `command[1]` and `command[2:]`. -/
def cpAddNewPlaylist (ds : DataStore) (command : List String) :
    Option (DataStore × Option HandlerErr) :=
  match command with
  | _ :: userId :: s :: rest =>
    match addNewPlaylist ds userId (s :: rest) with
    | (Except.ok _, ds₁) => some (ds₁, none)
    | (Except.error e, ds₁) => some (ds₁, some (HandlerErr.store e))
  | _ => some (ds, some HandlerErr.arity)

/-- Handler for `rm-playlist`: requires `len(command) == 2`, then delegates to
`RemovePlaylist` (whose boolean result is discarded). -/
def cpRemovePlaylist (ds : DataStore) (command : List String) :
    Option (DataStore × Option HandlerErr) :=
  match command with
  | [_, playlistId] =>
    match removePlaylist ds playlistId with
    | some (_, ds₁) => some (ds₁, none)
    | none => none
  | _ => some (ds, some HandlerErr.arity)

/-- Handler for `add-song-to-playlist`: requires `len(command) == 3`, then
delegates to `AddSongToPlaylist`. -/
def cpAddSongToPlaylist (ds : DataStore) (command : List String) :
    Option (DataStore × Option HandlerErr) :=
  match command with
  | [_, playlistId, songId] =>
    match addSongToPlaylist ds playlistId songId with
    | some (none, ds₁) => some (ds₁, none)
    | some (some e, ds₁) => some (ds₁, some (HandlerErr.store e))
    | none => none
  | _ => some (ds, some HandlerErr.arity)

/-- `ProcessCommand`: rejects an empty record, dispatches on `command[0]`
through the handler table, and wraps a handler failure together with the raw
command.  `none` models a panic propagating out of a handler. -/
def processCommand (ds : DataStore) (command : List String) :
    Option (DataStore × Option CmdErr) :=
  match command with
  | [] => some (ds, some CmdErr.emptyCommand)
  | baseCommand :: _ =>
    let wrapResult : Option (DataStore × Option HandlerErr) → Option (DataStore × Option CmdErr) :=
      fun r =>
        match r with
        | none => none
        | some (ds₁, none) => some (ds₁, none)
        | some (ds₁, some e) => some (ds₁, some (CmdErr.failed command e))
    if baseCommand = ADD_PLAYLIST then wrapResult (cpAddNewPlaylist ds command)
    else if baseCommand = ADD_SONG_TO_PLAYLIST then wrapResult (cpAddSongToPlaylist ds command)
    else if baseCommand = REMOVE_PLAYLIST then wrapResult (cpRemovePlaylist ds command)
    else some (ds, some (CmdErr.unknownCommand baseCommand))

/-- The `CommandProcessor` struct: the command records, the store reference and
the accumulated errors of the last run. -/
structure CommandProcessor where
  commands : List (List String)
  store : DataStore
  errors : List CmdErr
deriving DecidableEq, Repr

/-- `NewCommandProcessor`. -/
def newCommandProcessor (commands : List (List String)) (ds : DataStore) : CommandProcessor :=
  ⟨commands, ds, []⟩

/-- The loop of `ProcessAll`: processes each command in order, appending each
failure to the error list and continuing. -/
def processAllGo : DataStore → List (List String) → List CmdErr →
    Option (DataStore × List CmdErr)
  | ds, [], errs => some (ds, errs)
  | ds, c :: rest, errs =>
    match processCommand ds c with
    | none => none
    | some (ds₁, none) => processAllGo ds₁ rest errs
    | some (ds₁, some e) => processAllGo ds₁ rest (errs ++ [e])

/-- `ProcessAll`: resets the error list, runs the loop, and returns `true` as
the failure indicator iff at least one error was recorded. -/
def processAll (cp : CommandProcessor) : Option (CommandProcessor × Bool) :=
  match processAllGo cp.store cp.commands [] with
  | none => none
  | some (ds₁, errs) => some ({ cp with store := ds₁, errors := errs }, !errs.isEmpty)

/-- Power-of-ten weight matching the digit count produced by `natDigitsGo`. -/
def tenPowGo : Nat → Nat → Nat
  | 0, _ => 1
  | fuel + 1, n => if n < 10 then 10 else tenPowGo fuel (n / 10) * 10

/-! ### Sample stores (mirroring the repository's test fixture) -/

/-- Users of the sample snapshot. -/
def sampleUsers : List User := [⟨"1", "Albin"⟩, ⟨"2", "Dipika"⟩]

/-- Songs of the sample snapshot. -/
def sampleSongs : List Song :=
  [⟨"1", "Camila", "Havana"⟩, ⟨"2", "Zedd", "The Middle"⟩, ⟨"3", "The Weeknd", "Wasted Times"⟩]

/-- Playlists of the sample snapshot (maximum id 3). -/
def samplePlaylists : List Playlist :=
  [⟨"1", "2", ["1", "2"]⟩, ⟨"2", "1", ["2", "3"]⟩, ⟨"3", "2", ["3"]⟩]

/-- The store built from the sample snapshot. -/
def sampleStore : DataStore :=
  { users := sampleUsers, playlists := samplePlaylists, songs := sampleSongs,
    userMap := [("2", 1), ("1", 0)],
    playlistMap := [("3", 2), ("2", 1), ("1", 0)],
    songMap := [("3", 2), ("2", 1), ("1", 0)],
    nextPlaylistId := 4 }

/-- Store produced by loading two users that share the id "1". -/
def dupUserStore : DataStore :=
  { users := [⟨"1", "a"⟩, ⟨"1", "b"⟩], playlists := [], songs := [],
    userMap := [("1", 1)], playlistMap := [], songMap := [], nextPlaylistId := 1 }

/-- The `[valid, invalid, valid]` command batch of the claim. -/
def batchCommands : List (List String) :=
  [[ADD_PLAYLIST, "1", "1"], [REMOVE_PLAYLIST], [ADD_SONG_TO_PLAYLIST, "1", "2"]]

/-- Store state after running `batchCommands` against the sample store: both
valid commands applied, the middle (arity-invalid) one skipped. -/
def batchFinalStore : DataStore :=
  { users := sampleUsers,
    playlists := [⟨"1", "2", ["1", "2", "2"]⟩, ⟨"2", "1", ["2", "3"]⟩, ⟨"3", "2", ["3"]⟩,
                  ⟨"4", "1", ["1"]⟩],
    songs := sampleSongs,
    userMap := [("2", 1), ("1", 0)],
    playlistMap := [("4", 3), ("3", 2), ("2", 1), ("1", 0)],
    songMap := [("3", 2), ("2", 1), ("1", 0)],
    nextPlaylistId := 5 }

/-- A store, built by construction, holding exactly one playlist ("1"),
satisfying every Store invariant. -/
def c1Store : DataStore :=
  { users := [⟨"u1", "n"⟩], playlists := [⟨"1", "u1", ["s1"]⟩], songs := [⟨"s1", "a", "t"⟩],
    userMap := [("u1", 0)], playlistMap := [("1", 0)], songMap := [("s1", 0)],
    nextPlaylistId := 2 }

/-- The store after `RemovePlaylist("1")` on `c1Store`: the collection is
empty, yet the index still maps "1" to position 0. -/
def c1StoreAfter : DataStore :=
  { users := [⟨"u1", "n"⟩], playlists := [], songs := [⟨"s1", "a", "t"⟩],
    userMap := [("u1", 0)], playlistMap := [("1", 0)], songMap := [("s1", 0)],
    nextPlaylistId := 2 }

/-- Store loaded from the two extreme 64-bit playlist ids: `nextPlaylistId`
wraps around to the minimum `int` value. -/
def ovStore : DataStore :=
  { users := [⟨"1", "u"⟩],
    playlists := [⟨"9223372036854775807", "1", ["1"]⟩, ⟨"-9223372036854775808", "1", ["1"]⟩],
    songs := [⟨"1", "a", "t"⟩],
    userMap := [("1", 0)],
    playlistMap := [("-9223372036854775808", 1), ("9223372036854775807", 0)],
    songMap := [("1", 0)],
    nextPlaylistId := -9223372036854775808 }

/-- Invariant carried by every store reachable without counter overflow: the
counter lies in [1, 2^63 - 1] and every playlist id in the collection parses
to a value strictly below it. -/
def StoreIdInv (ds : DataStore) : Prop :=
  1 ≤ ds.nextPlaylistId ∧ ds.nextPlaylistId ≤ int64Max ∧
    ∀ p ∈ ds.playlists, ∃ v, strconvAtoi p.id = some v ∧ v < ds.nextPlaylistId

/-- Stores reachable from a successful load (whose counter did not wrap) by
store operations, where each `AddNewPlaylist` is applied below the counter's
64-bit ceiling. -/
inductive Reachable : DataStore → Prop where
  | load (us : List User) (ps : List Playlist) (ss : List Song) (ds : DataStore) :
      newDataStore us ps ss = some ds → 1 ≤ ds.nextPlaylistId → Reachable ds
  | add (ds : DataStore) (userId : String) (songIds : List String) :
      Reachable ds → ds.nextPlaylistId < int64Max →
      Reachable (addNewPlaylist ds userId songIds).2
  | addSong (ds : DataStore) (playlistId songId : String) (r : Option StoreErr)
      (ds' : DataStore) :
      Reachable ds → addSongToPlaylist ds playlistId songId = some (r, ds') → Reachable ds'
  | remove (ds : DataStore) (id : String) (b : Bool) (ds' : DataStore) :
      Reachable ds → removePlaylist ds id = some (b, ds') → Reachable ds'

/-! ### Lookup-table lemmas -/

theorem mapLookup_mapDelete (m : Smap) (k k' : String) :
    mapLookup (mapDelete m k) k' = if k' = k then none else mapLookup m k' := by
  induction m with
  | nil => simp [mapDelete, mapLookup]
  | cons e rest ih =>
    simp only [mapDelete, List.filter_cons] at ih ⊢
    by_cases h0 : e.1 = k <;> by_cases h1 : e.1 = k' <;>
      simp_all [mapLookup, bne_iff_ne]

theorem mapLookup_mapInsert (m : Smap) (k k' : String) (v : Nat) :
    mapLookup (mapInsert m k v) k' = if k = k' then some v else mapLookup m k' := by
  simp only [mapInsert, mapLookup]
  by_cases h : k = k'
  · simp [h]
  · rw [if_neg h, if_neg h, mapLookup_mapDelete, if_neg (fun hh => h hh.symm)]

/-! ### Decimal parse and print lemmas -/

theorem digitChar_toNat (d : Nat) (hd : d < 10) : (digitChar d).toNat = 48 + d := by
  interval_cases d <;> rfl

theorem digit_step (d : Nat) (hd : d < 10) (a : Nat) (acc : List Char) :
    digitsToNatAux a (digitChar d :: acc) = digitsToNatAux (a * 10 + d) acc := by
  have h := digitChar_toNat d hd
  simp only [digitsToNatAux, h]
  rw [if_pos ⟨by omega, by omega⟩]
  congr 1
  omega

theorem natDigitsGo_parse : ∀ (fuel n : Nat), n < fuel → ∀ (a : Nat) (acc : List Char),
    digitsToNatAux a (natDigitsGo fuel n acc) = digitsToNatAux (a * tenPowGo fuel n + n) acc := by
  intro fuel
  induction fuel with
  | zero => intro n h; omega
  | succ f ih =>
    intro n hn a acc
    by_cases h10 : n < 10
    · simp only [natDigitsGo, tenPowGo, if_pos h10]
      rw [digit_step n h10]
    · have hdiv : n / 10 < n := Nat.div_lt_self (by omega) (by norm_num)
      simp only [natDigitsGo, tenPowGo, if_neg h10]
      rw [ih (n / 10) (by omega), digit_step (n % 10) (Nat.mod_lt n (by norm_num))]
      have hmod : n / 10 * 10 + n % 10 = n := by omega
      congr 1
      calc (a * tenPowGo f (n / 10) + n / 10) * 10 + n % 10
          = a * (tenPowGo f (n / 10) * 10) + (n / 10 * 10 + n % 10) := by ring
        _ = a * (tenPowGo f (n / 10) * 10) + n := by rw [hmod]

theorem natDigitsGo_head : ∀ (fuel n : Nat), n < fuel → ∀ (acc : List Char),
    ∃ c cs, natDigitsGo fuel n acc = c :: cs ∧ 48 ≤ c.toNat ∧ c.toNat ≤ 57 := by
  intro fuel
  induction fuel with
  | zero => intro n h; omega
  | succ f ih =>
    intro n hn acc
    by_cases h10 : n < 10
    · refine ⟨digitChar n, acc, by simp [natDigitsGo, if_pos h10], ?_, ?_⟩ <;>
        rw [digitChar_toNat n h10] <;> omega
    · have hdiv : n / 10 < n := Nat.div_lt_self (by omega) (by norm_num)
      simpa [natDigitsGo, if_neg h10] using ih (n / 10) (by omega) (digitChar (n % 10) :: acc)

theorem digitsToNat_natDigitsGo (n : Nat) :
    digitsToNat (natDigitsGo (n + 1) n []) = some n := by
  obtain ⟨c, cs, hd, _, _⟩ := natDigitsGo_head (n + 1) n (by omega) []
  rw [hd]
  show digitsToNatAux 0 (c :: cs) = some n
  rw [← hd, natDigitsGo_parse (n + 1) n (by omega)]
  simp [digitsToNatAux]

theorem strconvAtoi_intToString (n : Int) (h1 : int64Min ≤ n) (h2 : n ≤ int64Max) :
    strconvAtoi (intToString n) = some n := by
  by_cases hn : n < 0
  · have hdata : (intToString n).data = '-' :: natDigitsGo (n.natAbs + 1) n.natAbs [] := by
      simp [intToString, if_pos hn, natToString, String.data_append]
    have habs : (n.natAbs : Int) = -n := by omega
    simp only [strconvAtoi, hdata]
    rw [if_pos trivial, digitsToNat_natDigitsGo]
    show (if int64Min ≤ -((n.natAbs : Nat) : Int) then some (-((n.natAbs : Nat) : Int))
      else none) = some n
    rw [habs, neg_neg, if_pos h1]
  · obtain ⟨c, cs, hd, h48, h57⟩ := natDigitsGo_head (n.toNat + 1) n.toNat (by omega) []
    have hdata : (intToString n).data = c :: cs := by
      simp [intToString, if_neg hn, natToString, hd]
    have hplus : c ≠ '+' := fun h => by rw [h] at h48; exact absurd h48 (by decide)
    have hminus : c ≠ '-' := fun h => by rw [h] at h48; exact absurd h48 (by decide)
    have htoNat : ((n.toNat : Nat) : Int) = n := by omega
    simp only [strconvAtoi, hdata]
    rw [if_neg hplus, if_neg hminus]
    rw [show digitsToNat (c :: cs) = some n.toNat from hd ▸ digitsToNat_natDigitsGo n.toNat]
    show (if ((n.toNat : Nat) : Int) ≤ int64Max then some ((n.toNat : Nat) : Int)
      else none) = some n
    rw [htoNat, if_pos h2]

theorem strconvAtoi_range (s : String) (n : Int) (h : strconvAtoi s = some n) :
    int64Min ≤ n ∧ n ≤ int64Max := by
  unfold strconvAtoi at h
  simp only [int64Min, int64Max] at *
  split at h
  · exact absurd h (by simp)
  · split at h
    · split at h
      · split at h
        · obtain ⟨rfl⟩ := Option.some.injEq .. ▸ h
          constructor <;> omega
        · exact absurd h (by simp)
      · exact absurd h (by simp)
    · split at h
      · split at h
        · split at h
          · obtain ⟨rfl⟩ := Option.some.injEq .. ▸ h
            constructor <;> omega
          · exact absurd h (by simp)
        · exact absurd h (by simp)
      · split at h
        · split at h
          · obtain ⟨rfl⟩ := Option.some.injEq .. ▸ h
            constructor <;> omega
          · exact absurd h (by simp)
        · exact absurd h (by simp)

/-! ### Construction lemmas -/

theorem wrap64_eq_self (n : Int) (h1 : int64Min ≤ n) (h2 : n ≤ int64Max) : wrap64 n = n := by
  simp only [wrap64, int64Min, int64Max] at *
  omega

theorem playlistTablesAux_isNone :
    ∀ (ps : List Playlist) (i : Nat) (m : Smap) (maxId : Int),
    playlistTablesAux ps i m maxId = none ↔ ∃ p ∈ ps, strconvAtoi p.id = none := by
  intro ps
  induction ps with
  | nil => simp [playlistTablesAux]
  | cons p rest ih =>
    intro i m maxId
    simp only [playlistTablesAux]
    cases hA : strconvAtoi p.id with
    | none => simp [hA]
    | some v => simp [hA, ih]

theorem playlistTablesAux_map :
    ∀ (ps : List Playlist) (i : Nat) (m : Smap) (maxId : Int) (m' : Smap) (mx : Int),
    playlistTablesAux ps i m maxId = some (m', mx) → m' = buildIndexAux Playlist.id ps i m := by
  intro ps
  induction ps with
  | nil =>
    intro i m maxId m' mx h
    simp only [playlistTablesAux, Option.some.injEq, Prod.mk.injEq] at h
    simpa [buildIndexAux] using h.1.symm
  | cons p rest ih =>
    intro i m maxId m' mx h
    simp only [playlistTablesAux] at h
    cases hA : strconvAtoi p.id with
    | none => rw [hA] at h; exact absurd h (by simp)
    | some v =>
      rw [hA] at h
      exact ih _ _ _ _ _ h

theorem playlistTablesAux_max :
    ∀ (ps : List Playlist) (i : Nat) (m : Smap) (maxId : Int) (m' : Smap) (mx : Int),
    playlistTablesAux ps i m maxId = some (m', mx) →
      maxId ≤ mx ∧ (∀ p ∈ ps, ∃ v, strconvAtoi p.id = some v ∧ v ≤ mx) ∧
        (mx = maxId ∨ ∃ p ∈ ps, strconvAtoi p.id = some mx) := by
  intro ps
  induction ps with
  | nil =>
    intro i m maxId m' mx h
    simp only [playlistTablesAux, Option.some.injEq, Prod.mk.injEq] at h
    refine ⟨le_of_eq h.2, by simp, Or.inl h.2.symm⟩
  | cons p rest ih =>
    intro i m maxId m' mx h
    simp only [playlistTablesAux] at h
    cases hA : strconvAtoi p.id with
    | none => rw [hA] at h; exact absurd h (by simp)
    | some v =>
      rw [hA] at h
      obtain ⟨hle, hall, hor⟩ := ih _ _ _ _ _ h
      constructor
      · by_cases hv : v > maxId
        · rw [if_pos hv] at hle; omega
        · rwa [if_neg hv] at hle
      constructor
      · intro q hq
        rcases List.mem_cons.mp hq with rfl | hq'
        · refine ⟨v, hA, ?_⟩
          by_cases hv : v > maxId
          · rw [if_pos hv] at hle; omega
          · rw [if_neg hv] at hle; omega
        · exact hall q hq'
      · rcases hor with heq | ⟨q, hq, hqv⟩
        · by_cases hv : v > maxId
          · rw [if_pos hv] at heq
            exact Or.inr ⟨p, List.mem_cons_self .., heq ▸ hA⟩
          · rw [if_neg hv] at heq
            exact Or.inl heq
        · exact Or.inr ⟨q, List.mem_cons_of_mem _ hq, hqv⟩

theorem mapLookup_buildIndexAux_of_not_mem (getId : α → String) :
    ∀ (xs : List α) (i : Nat) (m : Smap) (k : String),
    (∀ x ∈ xs, getId x ≠ k) →
    mapLookup (buildIndexAux getId xs i m) k = mapLookup m k := by
  intro xs
  induction xs with
  | nil => intro i m k _; rfl
  | cons x rest ih =>
    intro i m k hk
    simp only [buildIndexAux]
    rw [ih _ _ _ (fun y hy => hk y (List.mem_cons_of_mem _ hy))]
    rw [mapLookup_mapInsert, if_neg (hk x (List.mem_cons_self ..))]

theorem mapLookup_buildIndexAux_nodup (getId : α → String) :
    ∀ (xs : List α) (i : Nat) (m : Smap), (xs.map getId).Nodup →
    ∀ (j : Nat) (h : j < xs.length),
    mapLookup (buildIndexAux getId xs i m) (getId (xs.get ⟨j, h⟩)) = some (i + j) := by
  intro xs
  induction xs with
  | nil => intro i m _ j h; exact absurd h (by simp)
  | cons x rest ih =>
    intro i m hnd j h
    simp only [List.map_cons, List.nodup_cons] at hnd
    obtain ⟨hx, hrest⟩ := hnd
    match j with
    | 0 =>
      simp only [List.get, buildIndexAux]
      rw [mapLookup_buildIndexAux_of_not_mem getId rest (i + 1) _ (getId x)
        (fun y hy hc => hx (hc ▸ List.mem_map_of_mem getId hy))]
      rw [mapLookup_mapInsert, if_pos rfl]
      simp
    | j' + 1 =>
      simp only [List.get, buildIndexAux]
      rw [ih _ _ hrest j' (by simpa using h)]
      congr 1
      omega

theorem sampleStore_built :
    newDataStore sampleUsers samplePlaylists sampleSongs = some sampleStore := by decide

/-! ### C2 — construction failure condition -/

/-- C2 counterexample: the playlist id "-5" is a negative integer string — not a
valid non-negative integer — yet store construction succeeds, because
`strconv.Atoi` accepts signed integers.  This refutes the claim that
construction fails for every input containing a negative playlist id. -/
theorem c2_counterexample :
    (newDataStore [] [⟨"-5", "u", ["s"]⟩] []).isSome = true ∧
      strconvAtoi "-5" = some (-5) ∧ (-5 : Int) < 0 := by
  exact ⟨by decide, by decide, by decide⟩

/-- C2 (amended): store construction from a loaded snapshot fails iff some
playlist id does not parse under Go `strconv.Atoi` semantics — as a base-10
integer with an optional sign, within the signed 64-bit range.  (Negative
integer ids are accepted.) -/
theorem c2_construction_fails_iff_unparsable_id
    (us : List User) (ps : List Playlist) (ss : List Song) :
    newDataStore us ps ss = none ↔ ∃ p ∈ ps, strconvAtoi p.id = none := by
  unfold newDataStore
  cases h : playlistTablesAux ps 0 [] 0 with
  | none => simpa using (playlistTablesAux_isNone ps 0 [] 0).mp h
  | some r =>
    obtain ⟨pm, mx⟩ := r
    simp only []
    constructor
    · intro hc
      exact absurd hc (by simp)
    · intro hex
      have hnone := (playlistTablesAux_isNone ps 0 [] 0).mpr hex
      rw [h] at hnone
      exact absurd hnone (by simp)

/-- Witness for C2 at a concrete input: a snapshot whose only playlist has the
unparsable id "x" is rejected by construction. -/
theorem c2_witness : newDataStore [] [⟨"x", "u", ["s"]⟩] [] = none :=
  (c2_construction_fails_iff_unparsable_id [] [⟨"x", "u", ["s"]⟩] []).mpr
    ⟨⟨"x", "u", ["s"]⟩, by decide, by decide⟩

/-! ### C3 — nextPlaylistId after load -/

/-- C3 counterexample: loading a single playlist with id "-5" yields
`nextPlaylistId = 1`, not `1 + (-5) = -4` as the claim's formula ("1 plus the
maximum numeric id among the loaded playlists") requires, because the running
maximum starts at 0 and negative parsed ids never raise it. -/
theorem c3_counterexample :
    ((newDataStore [] [⟨"-5", "u", ["s"]⟩] []).map DataStore.nextPlaylistId) = some 1 ∧
      (1 : Int) ≠ (-5) + 1 := by
  exact ⟨by decide, by decide⟩

theorem playlistTablesAux_max_foldl :
    ∀ (ps : List Playlist) (i : Nat) (m : Smap) (maxId : Int) (m' : Smap) (mx : Int),
    playlistTablesAux ps i m maxId = some (m', mx) →
      mx = (ps.filterMap (fun p => strconvAtoi p.id)).foldl max maxId := by
  intro ps
  induction ps with
  | nil =>
    intro i m maxId m' mx h
    simp only [playlistTablesAux, Option.some.injEq, Prod.mk.injEq] at h
    simpa using h.2.symm
  | cons p rest ih =>
    intro i m maxId m' mx h
    simp only [playlistTablesAux] at h
    cases hA : strconvAtoi p.id with
    | none => rw [hA] at h; exact absurd h (by simp)
    | some v =>
      rw [hA] at h
      rw [List.filterMap_cons, hA]
      simp only [List.foldl_cons]
      rw [ih _ _ _ _ _ h]
      congr 1
      by_cases hv : v > maxId
      · rw [if_pos hv, max_eq_right (le_of_lt hv)]
      · rw [if_neg hv, max_eq_left (not_lt.mp hv)]

/-- C3 (amended): after a successful load, `nextPlaylistId` equals the maximum
of 0 and all parsed playlist ids, plus one, taken with 64-bit wraparound.  For
snapshots whose ids are non-negative and whose maximum id is below 2^63 - 1
this is exactly 1 + the maximum numeric id (and 1 when there are no
playlists); negative ids are ignored by the maximum, and the sum wraps at the
signed 64-bit boundary. -/
theorem c3_nextPlaylistId_after_load
    (us : List User) (ps : List Playlist) (ss : List Song) (ds : DataStore)
    (h : newDataStore us ps ss = some ds) :
    ds.nextPlaylistId =
      wrap64 (((ps.filterMap (fun p => strconvAtoi p.id)).foldl max 0) + 1) := by
  unfold newDataStore at h
  cases haux : playlistTablesAux ps 0 [] 0 with
  | none => rw [haux] at h; exact absurd h (by simp)
  | some r =>
    obtain ⟨pm, mx⟩ := r
    rw [haux] at h
    simp only [Option.some.injEq] at h
    subst h
    rw [← playlistTablesAux_max_foldl ps 0 [] 0 pm mx haux]

/-- Witness for C3 at a concrete input: the sample snapshot (maximum playlist
id 3) loads with `nextPlaylistId = 4`. -/
theorem c3_witness :
    sampleStore.nextPlaylistId =
      wrap64 (((samplePlaylists.filterMap (fun p => strconvAtoi p.id)).foldl max 0) + 1) :=
  c3_nextPlaylistId_after_load sampleUsers samplePlaylists sampleSongs sampleStore
    sampleStore_built

/-! ### C4 — indexes resolve to the exact entity -/

/-- C4 counterexample: loading two users with the same id "1" succeeds, but the
user index maps "1" to position 1, which holds the second user — so for the
first loaded user (position 0) the index does not resolve to the position
holding that exact entity (later entries shadow earlier ones). -/
theorem c4_counterexample :
    newDataStore [⟨"1", "a"⟩, ⟨"1", "b"⟩] [] [] = some dupUserStore ∧
      mapLookup dupUserStore.userMap ((⟨"1", "a"⟩ : User).id) = some 1 ∧
      dupUserStore.users[0]? = some ⟨"1", "a"⟩ ∧
      dupUserStore.users[1]? = some ⟨"1", "b"⟩ ∧
      (⟨"1", "b"⟩ : User) ≠ (⟨"1", "a"⟩ : User) := by
  refine ⟨by decide, by decide, by decide, by decide, by decide⟩

/-- C4 (amended): after a successful load of a snapshot in which ids are
pairwise distinct within each collection, every entity's id resolves through
the corresponding index to the position holding that exact entity.  (With
duplicate ids the index keeps only the last occurrence, shadowing earlier
entities, as the repository leaves id uniqueness unchecked.) -/
theorem c4_load_indexes_exact
    (us : List User) (ps : List Playlist) (ss : List Song) (ds : DataStore)
    (hu : (us.map User.id).Nodup) (hp : (ps.map Playlist.id).Nodup)
    (hs : (ss.map Song.id).Nodup)
    (h : newDataStore us ps ss = some ds) :
    (∀ (j : Nat) (hj : j < ds.users.length),
        mapLookup ds.userMap ((ds.users.get ⟨j, hj⟩).id) = some j) ∧
    (∀ (j : Nat) (hj : j < ds.playlists.length),
        mapLookup ds.playlistMap ((ds.playlists.get ⟨j, hj⟩).id) = some j) ∧
    (∀ (j : Nat) (hj : j < ds.songs.length),
        mapLookup ds.songMap ((ds.songs.get ⟨j, hj⟩).id) = some j) := by
  unfold newDataStore at h
  cases haux : playlistTablesAux ps 0 [] 0 with
  | none => rw [haux] at h; exact absurd h (by simp)
  | some r =>
    obtain ⟨pm, mx⟩ := r
    rw [haux] at h
    simp only [Option.some.injEq] at h
    subst h
    refine ⟨?_, ?_, ?_⟩
    · intro j hj
      simpa using mapLookup_buildIndexAux_nodup User.id us 0 [] hu j hj
    · intro j hj
      rw [playlistTablesAux_map ps 0 [] 0 pm mx haux]
      simpa using mapLookup_buildIndexAux_nodup Playlist.id ps 0 [] hp j hj
    · intro j hj
      simpa using mapLookup_buildIndexAux_nodup Song.id ss 0 [] hs j hj

/-- Witness for C4 at a concrete input: in the sample store (all ids distinct
per collection) the second user's id resolves to position 1. -/
theorem c4_witness :
    mapLookup sampleStore.userMap ((sampleStore.users.get ⟨1, by decide⟩).id) = some 1 :=
  (c4_load_indexes_exact sampleUsers samplePlaylists sampleSongs sampleStore
    (by decide) (by decide) (by decide) sampleStore_built).1 1 (by decide)

/-! ### C5 — AddNewPlaylist validation order and failure atomicity -/

/-- C5: `AddNewPlaylist` validates in the order unknown user, empty song list,
unknown song (first failure wins), and on every failure the store — its
playlist collection, playlist index and `nextPlaylistId` included — is returned
unchanged. -/
theorem c5_addNewPlaylist_validation (ds : DataStore) (userId : String)
    (songIds : List String) :
    (mapLookup ds.userMap userId = none →
      addNewPlaylist ds userId songIds = (Except.error StoreErr.unknownUser, ds)) ∧
    ((mapLookup ds.userMap userId).isSome → songIds = [] →
      addNewPlaylist ds userId songIds = (Except.error StoreErr.emptyPlaylist, ds)) ∧
    ((mapLookup ds.userMap userId).isSome → songIds ≠ [] →
      (∃ s ∈ songIds, mapLookup ds.songMap s = none) →
      addNewPlaylist ds userId songIds = (Except.error StoreErr.unknownSong, ds)) ∧
    (∀ e, (addNewPlaylist ds userId songIds).1 = Except.error e →
      (addNewPlaylist ds userId songIds).2 = ds) := by
  refine ⟨?_, ?_, ?_, ?_⟩
  · intro h
    unfold addNewPlaylist
    rw [if_pos (by rw [h]; rfl)]
  · intro h1 h2
    subst h2
    unfold addNewPlaylist
    rw [if_neg (by cases hl : mapLookup ds.userMap userId <;> simp_all), if_pos (by simp)]
  · intro h1 h2 h3
    obtain ⟨s, hs, hnone⟩ := h3
    unfold addNewPlaylist
    rw [if_neg (by cases hl : mapLookup ds.userMap userId <;> simp_all),
      if_neg (by simpa using h2),
      if_pos (by simp only [List.any_eq_true]; exact ⟨s, hs, by rw [hnone]; rfl⟩)]
  · intro e he
    unfold addNewPlaylist at he ⊢
    by_cases h1 : (mapLookup ds.userMap userId).isNone = true
    · rw [if_pos h1]
    · rw [if_neg h1] at he ⊢
      by_cases h2 : songIds.length = 0
      · rw [if_pos h2]
      · rw [if_neg h2] at he ⊢
        by_cases h3 : songIds.any (fun s => (mapLookup ds.songMap s).isNone) = true
        · rw [if_pos h3]
        · rw [if_neg h3] at he ⊢
          exact absurd he (by simp)

/-- Witness for C5 at a concrete input: an unknown user id fails with
`UnknownUser` and leaves the sample store unchanged. -/
theorem c5_witness :
    mapLookup sampleStore.userMap "zzz" = none ∧
      addNewPlaylist sampleStore "zzz" ["1"] = (Except.error StoreErr.unknownUser, sampleStore) :=
  ⟨by decide, (c5_addNewPlaylist_validation sampleStore "zzz" ["1"]).1 (by decide)⟩

/-! ### C6 — AddNewPlaylist success path -/

/-- C6: on a valid input, `AddNewPlaylist` returns the decimal string of the
pre-call `nextPlaylistId`, increments the counter (with Go `int` wraparound),
appends exactly one playlist holding exactly the given song ids in order (the
stored list is a value copy, so later caller-side mutation cannot affect it),
and registers the new id at the appended position in the playlist index. -/
theorem c6_addNewPlaylist_success (ds : DataStore) (userId : String)
    (songIds : List String)
    (hu : (mapLookup ds.userMap userId).isSome)
    (hne : songIds ≠ [])
    (hall : ∀ s ∈ songIds, (mapLookup ds.songMap s).isSome) :
    addNewPlaylist ds userId songIds =
      (Except.ok (intToString ds.nextPlaylistId),
       { ds with nextPlaylistId := wrap64 (ds.nextPlaylistId + 1),
                 playlists := ds.playlists ++ [⟨intToString ds.nextPlaylistId, userId, songIds⟩],
                 playlistMap := mapInsert ds.playlistMap (intToString ds.nextPlaylistId)
                   ds.playlists.length }) := by
  have h3 : songIds.any (fun s => (mapLookup ds.songMap s).isNone) = false := by
    rw [List.any_eq_false]
    intro s hs
    have := hall s hs
    cases h : mapLookup ds.songMap s <;> simp_all
  unfold addNewPlaylist
  rw [if_neg (by cases hl : mapLookup ds.userMap userId <;> simp_all),
    if_neg (by simpa using hne), if_neg (by rw [h3]; simp)]
  simp [List.length_append, Nat.add_sub_cancel]

/-- Witness for C6 at a concrete input: against the sample store (maximum
playlist id 3), `AddNewPlaylist("1", ["1","2"])` succeeds and returns "4". -/
theorem c6_witness :
    intToString sampleStore.nextPlaylistId = "4" ∧
      addNewPlaylist sampleStore "1" ["1", "2"] =
        (Except.ok (intToString sampleStore.nextPlaylistId),
         { sampleStore with
             nextPlaylistId := wrap64 (sampleStore.nextPlaylistId + 1),
             playlists := sampleStore.playlists ++
               [⟨intToString sampleStore.nextPlaylistId, "1", ["1", "2"]⟩],
             playlistMap := mapInsert sampleStore.playlistMap
               (intToString sampleStore.nextPlaylistId) sampleStore.playlists.length }) :=
  ⟨by decide,
    c6_addNewPlaylist_success sampleStore "1" ["1", "2"] (by decide) (by decide) (by decide)⟩

/-! ### C7 — AddSongToPlaylist ordering and append -/

/-- C7: `AddSongToPlaylist` checks the song id before the playlist id (an
unknown song wins when both are invalid), fails with `UnknownPlaylist` when the
song exists but the playlist does not, and on success appends the song id to
the end of the target playlist's song list, duplicates permitted. -/
theorem c7_addSongToPlaylist (ds : DataStore) (playlistId songId : String) :
    (mapLookup ds.songMap songId = none →
      addSongToPlaylist ds playlistId songId = some (some StoreErr.unknownSong, ds)) ∧
    ((mapLookup ds.songMap songId).isSome → mapLookup ds.playlistMap playlistId = none →
      addSongToPlaylist ds playlistId songId = some (some StoreErr.unknownPlaylist, ds)) ∧
    (∀ (idx : Nat) (p : Playlist), (mapLookup ds.songMap songId).isSome →
      mapLookup ds.playlistMap playlistId = some idx →
      ds.playlists[idx]? = some p →
      addSongToPlaylist ds playlistId songId =
        some (none, { ds with
          playlists := ds.playlists.set idx { p with songIds := p.songIds ++ [songId] } })) := by
  refine ⟨?_, ?_, ?_⟩
  · intro h
    unfold addSongToPlaylist
    rw [if_pos (by rw [h]; rfl)]
  · intro h1 h2
    unfold addSongToPlaylist
    rw [if_neg (by cases hl : mapLookup ds.songMap songId <;> simp_all), h2]
  · intro idx p h1 h2 h3
    unfold addSongToPlaylist
    rw [if_neg (by cases hl : mapLookup ds.songMap songId <;> simp_all)]
    simp only [h2, h3]

/-- Witness for C7 at a concrete input: adding song "1" to playlist "1" of the
sample store (2 songs) appends a duplicate, and three successive additions of
the same song yield 5 entries. -/
theorem c7_witness :
    addSongToPlaylist sampleStore "1" "1" =
      some (none, { sampleStore with
        playlists := sampleStore.playlists.set 0 ⟨"1", "2", ["1", "2", "1"]⟩ }) ∧
    (((addSongToPlaylist sampleStore "1" "1").bind
        (fun r => addSongToPlaylist r.2 "1" "1")).bind
        (fun r => addSongToPlaylist r.2 "1" "1")).map
      (fun r => (r.2.playlists.getD 0 ⟨"", "", []⟩).songIds.length) = some 5 := by
  refine ⟨?_, by decide⟩
  have h := (c7_addSongToPlaylist sampleStore "1" "1").2.2 0 ⟨"1", "2", ["1", "2"]⟩
    (by decide) (by decide) (by decide)
  rw [h]
  decide

/-! ### C9 — command dispatch, unknown commands and arity contracts -/

/-- C9: `ProcessCommand` fails with `EmptyCommand` on an empty record, with
`UnknownCommand` naming the offending token on an unrecognized name, and each
handler enforces its arity (`add-playlist` ≥ 2 remaining fields,
`add-song-to-playlist` exactly 2, `rm-playlist` exactly 1) before the store is
consulted: on an arity failure the store is returned untouched alongside the
arity error. -/
theorem c9_processCommand_contracts (ds : DataStore) :
    (processCommand ds [] = some (ds, some CmdErr.emptyCommand)) ∧
    (∀ (name : String) (args : List String),
      name ≠ ADD_PLAYLIST → name ≠ ADD_SONG_TO_PLAYLIST → name ≠ REMOVE_PLAYLIST →
      processCommand ds (name :: args) = some (ds, some (CmdErr.unknownCommand name))) ∧
    (∀ args : List String, args.length < 2 →
      processCommand ds (ADD_PLAYLIST :: args) =
        some (ds, some (CmdErr.failed (ADD_PLAYLIST :: args) HandlerErr.arity))) ∧
    (∀ args : List String, args.length ≠ 2 →
      processCommand ds (ADD_SONG_TO_PLAYLIST :: args) =
        some (ds, some (CmdErr.failed (ADD_SONG_TO_PLAYLIST :: args) HandlerErr.arity))) ∧
    (∀ args : List String, args.length ≠ 1 →
      processCommand ds (REMOVE_PLAYLIST :: args) =
        some (ds, some (CmdErr.failed (REMOVE_PLAYLIST :: args) HandlerErr.arity))) := by
  refine ⟨rfl, ?_, ?_, ?_, ?_⟩
  · intro name args h1 h2 h3
    simp only [processCommand]
    rw [if_neg h1, if_neg h2, if_neg h3]
  · intro args hlen
    cases args with
    | nil => rfl
    | cons a rest =>
      cases rest with
      | nil => rfl
      | cons b rest₂ => simp at hlen; omega
  · intro args hlen
    cases args with
    | nil => rfl
    | cons a rest =>
      cases rest with
      | nil => rfl
      | cons b rest₂ =>
        cases rest₂ with
        | nil => simp at hlen
        | cons c rest₃ => rfl
  · intro args hlen
    cases args with
    | nil => rfl
    | cons a rest =>
      cases rest with
      | nil => simp at hlen
      | cons b rest₂ => rfl

/-- Witness for C9 at a concrete input: an unrecognized command name is
rejected with `UnknownCommand` naming the token. -/
theorem c9_witness :
    processCommand sampleStore ["frobnicate", "1"] =
      some (sampleStore, some (CmdErr.unknownCommand "frobnicate")) :=
  (c9_processCommand_contracts sampleStore).2.1 "frobnicate" ["1"]
    (by decide) (by decide) (by decide)

/-! ### C8 — best-effort batch processing -/

theorem processAllGo_errs_acc :
    ∀ (cmds : List (List String)) (ds : DataStore) (errs : List CmdErr),
    processAllGo ds cmds errs = (processAllGo ds cmds []).map (fun r => (r.1, errs ++ r.2)) := by
  intro cmds
  induction cmds with
  | nil => intro ds errs; simp [processAllGo]
  | cons c rest ih =>
    intro ds errs
    simp only [processAllGo]
    cases h : processCommand ds c with
    | none => simp
    | some r =>
      obtain ⟨ds₁, oe⟩ := r
      cases oe with
      | none => exact ih ds₁ errs
      | some e =>
        show processAllGo ds₁ rest (errs ++ [e]) =
          Option.map (fun r => (r.1, errs ++ r.2)) (processAllGo ds₁ rest [e])
        rw [ih ds₁ (errs ++ [e]), ih ds₁ [e]]
        cases processAllGo ds₁ rest [] <;> simp

/-- C8: `ProcessAll` resets the error list (its result is independent of
previously accumulated errors), returns the failure indicator `true` iff at
least one command failed, and processes every command in order regardless of
earlier failures: a successful head command simply advances the state, while a
failing head command contributes its error at the head of the error list and
processing continues on the remaining commands against the updated store. -/
theorem c8_processAll_batch :
    (∀ (cp : CommandProcessor) (es : List CmdErr),
      processAll { cp with errors := es } = processAll cp) ∧
    (∀ (cp : CommandProcessor) (cp' : CommandProcessor) (b : Bool),
      processAll cp = some (cp', b) → (b = true ↔ cp'.errors ≠ [])) ∧
    (∀ (ds ds₁ : DataStore) (c : List String) (rest : List (List String)),
      processCommand ds c = some (ds₁, none) →
      processAllGo ds (c :: rest) [] = processAllGo ds₁ rest []) ∧
    (∀ (ds ds₁ : DataStore) (c : List String) (rest : List (List String)) (e : CmdErr),
      processCommand ds c = some (ds₁, some e) →
      processAllGo ds (c :: rest) [] =
        (processAllGo ds₁ rest []).map (fun r => (r.1, e :: r.2))) := by
  refine ⟨?_, ?_, ?_, ?_⟩
  · intro cp es
    unfold processAll
    cases h : processAllGo cp.store cp.commands [] <;> simp
  · intro cp cp' b h
    unfold processAll at h
    cases hgo : processAllGo cp.store cp.commands [] with
    | none => rw [hgo] at h; exact absurd h (by simp)
    | some r =>
      obtain ⟨ds₁, errs⟩ := r
      rw [hgo] at h
      simp only [Option.some.injEq, Prod.mk.injEq] at h
      obtain ⟨hcp, hb⟩ := h
      subst hcp
      subst hb
      simp [List.isEmpty_iff]
  · intro ds ds₁ c rest h
    simp only [processAllGo, h]
  · intro ds ds₁ c rest e h
    simp only [processAllGo, h, List.nil_append]
    rw [processAllGo_errs_acc rest ds₁ [e]]
    cases processAllGo ds₁ rest [] <;> simp

/-- Witness for C8 at a concrete input: a `[valid, invalid, valid]` run applies
both valid commands, records exactly the middle command's error, and reports
failure. -/
theorem c8_witness :
    processAll (newCommandProcessor batchCommands sampleStore) =
      some ({ commands := batchCommands, store := batchFinalStore,
              errors := [CmdErr.failed [REMOVE_PLAYLIST] HandlerErr.arity] }, true) ∧
    (true = true ↔
      ({ commands := batchCommands, store := batchFinalStore,
         errors := [CmdErr.failed [REMOVE_PLAYLIST] HandlerErr.arity] } :
           CommandProcessor).errors ≠ []) := by
  refine ⟨by decide, ?_⟩
  exact c8_processAll_batch.2.1 (newCommandProcessor batchCommands sampleStore)
    { commands := batchCommands, store := batchFinalStore,
      errors := [CmdErr.failed [REMOVE_PLAYLIST] HandlerErr.arity] } true (by decide)

/-! ### C1 — RemovePlaylist on a present id -/

/-- C1 evidence of the code bug: removing the playlist that sits at the last
position reports "removed" and shrinks the collection by one, but re-inserts
the removed id into the index (the swap-remove bookkeeping repoints
`lastPlaylist.Id`, which here IS the removed id), leaving a stale out-of-range
entry; the immediately repeated `RemovePlaylist("1")` then hits that stale
entry and panics (index out of range) instead of returning "not removed". -/
theorem c1_bug_evidence :
    newDataStore [⟨"u1", "n"⟩] [⟨"1", "u1", ["s1"]⟩] [⟨"s1", "a", "t"⟩] = some c1Store ∧
    removePlaylist c1Store "1" = some (true, c1StoreAfter) ∧
    c1StoreAfter.playlists.length = c1Store.playlists.length - 1 ∧
    c1StoreAfter.playlists = [] ∧
    mapLookup c1StoreAfter.playlistMap "1" = some 0 ∧
    removePlaylist c1StoreAfter "1" = none := by
  refine ⟨by decide, by decide, by decide, by decide, by decide, by decide⟩

/-! ### C10 — freshness of generated playlist ids -/

/-- C10 counterexample: construction succeeds on a snapshot whose playlist ids
are 2^63 - 1 and -2^63 (both valid under Atoi), but `nextPlaylistId` wraps to
-2^63; the first successful `AddNewPlaylist` then returns the id
"-9223372036854775808", which equals the id of a playlist already present
before the call — generated ids are not always fresh. -/
theorem c10_counterexample :
    newDataStore [⟨"1", "u"⟩]
      [⟨"9223372036854775807", "1", ["1"]⟩, ⟨"-9223372036854775808", "1", ["1"]⟩]
      [⟨"1", "a", "t"⟩] = some ovStore ∧
    (addNewPlaylist ovStore "1" ["1"]).1 = Except.ok "-9223372036854775808" ∧
    ovStore.playlists.map Playlist.id = ["9223372036854775807", "-9223372036854775808"] := by
  refine ⟨by decide, by decide, by decide⟩

theorem storeIdInv_load (us : List User) (ps : List Playlist) (ss : List Song)
    (ds : DataStore) (h : newDataStore us ps ss = some ds)
    (h1 : 1 ≤ ds.nextPlaylistId) : StoreIdInv ds := by
  unfold newDataStore at h
  cases haux : playlistTablesAux ps 0 [] 0 with
  | none => rw [haux] at h; exact absurd h (by simp)
  | some r =>
    obtain ⟨pm, mx⟩ := r
    rw [haux] at h
    simp only [Option.some.injEq] at h
    subst h
    obtain ⟨hle, hall, hor⟩ := playlistTablesAux_max ps 0 [] 0 pm mx haux
    have hmx_ub : mx ≤ int64Max := by
      rcases hor with heq | ⟨q, hq, hqv⟩
      · rw [heq]; norm_num [int64Max]
      · exact (strconvAtoi_range _ _ hqv).2
    have h1' : (1 : Int) ≤ wrap64 (mx + 1) := h1
    have hsum : mx + 1 ≤ int64Max := by
      by_contra hc
      have hmx : mx = int64Max := by omega
      rw [hmx, show wrap64 (int64Max + 1) = int64Min from by decide] at h1'
      simp only [int64Min] at h1'
      omega
    have hwrap : wrap64 (mx + 1) = mx + 1 :=
      wrap64_eq_self _ (by simp only [int64Min]; omega) hsum
    refine ⟨h1, ?_, ?_⟩
    · show wrap64 (mx + 1) ≤ int64Max
      rw [hwrap]
      exact hsum
    · intro p hp
      obtain ⟨v, hv, hvle⟩ := hall p hp
      refine ⟨v, hv, ?_⟩
      show v < wrap64 (mx + 1)
      rw [hwrap]
      omega

theorem storeIdInv_add (ds : DataStore) (userId : String) (songIds : List String)
    (hinv : StoreIdInv ds) (hb : ds.nextPlaylistId < int64Max) :
    StoreIdInv (addNewPlaylist ds userId songIds).2 := by
  obtain ⟨h1, h2, hall⟩ := hinv
  unfold addNewPlaylist
  by_cases c1 : (mapLookup ds.userMap userId).isNone = true
  · rw [if_pos c1]; exact ⟨h1, h2, hall⟩
  · rw [if_neg c1]
    by_cases c2 : songIds.length = 0
    · rw [if_pos c2]; exact ⟨h1, h2, hall⟩
    · rw [if_neg c2]
      by_cases c3 : songIds.any (fun s => (mapLookup ds.songMap s).isNone) = true
      · rw [if_pos c3]; exact ⟨h1, h2, hall⟩
      · rw [if_neg c3]
        have hwrap : wrap64 (ds.nextPlaylistId + 1) = ds.nextPlaylistId + 1 :=
          wrap64_eq_self _ (by simp only [int64Min]; omega) (by omega)
        refine ⟨?_, ?_, ?_⟩
        · show (1 : Int) ≤ wrap64 (ds.nextPlaylistId + 1)
          rw [hwrap]; omega
        · show wrap64 (ds.nextPlaylistId + 1) ≤ int64Max
          rw [hwrap]; omega
        · intro p hp
          simp only [List.mem_append, List.mem_singleton] at hp
          rcases hp with hp | rfl
          · obtain ⟨v, hv, hvlt⟩ := hall p hp
            refine ⟨v, hv, ?_⟩
            show v < wrap64 (ds.nextPlaylistId + 1)
            rw [hwrap]; omega
          · refine ⟨ds.nextPlaylistId, ?_, ?_⟩
            · exact strconvAtoi_intToString ds.nextPlaylistId
                (by simp only [int64Min]; omega) h2
            · show ds.nextPlaylistId < wrap64 (ds.nextPlaylistId + 1)
              rw [hwrap]; omega

theorem storeIdInv_addSong (ds : DataStore) (playlistId songId : String)
    (r : Option StoreErr) (ds' : DataStore) (hinv : StoreIdInv ds)
    (h : addSongToPlaylist ds playlistId songId = some (r, ds')) : StoreIdInv ds' := by
  obtain ⟨h1, h2, hall⟩ := hinv
  unfold addSongToPlaylist at h
  by_cases c1 : (mapLookup ds.songMap songId).isNone = true
  · rw [if_pos c1] at h
    simp only [Option.some.injEq, Prod.mk.injEq] at h
    obtain ⟨-, hds⟩ := h
    subst hds
    exact ⟨h1, h2, hall⟩
  · rw [if_neg c1] at h
    cases hlk : mapLookup ds.playlistMap playlistId with
    | none =>
      simp only [hlk, Option.some.injEq, Prod.mk.injEq] at h
      obtain ⟨-, hds⟩ := h
      subst hds
      exact ⟨h1, h2, hall⟩
    | some idx =>
      simp only [hlk] at h
      cases hget : ds.playlists[idx]? with
      | none =>
        simp only [hget] at h
        exact absurd h (by simp)
      | some p =>
        simp only [hget, Option.some.injEq, Prod.mk.injEq] at h
        obtain ⟨-, hds⟩ := h
        subst hds
        refine ⟨h1, h2, ?_⟩
        intro q hq
        rcases List.mem_or_eq_of_mem_set hq with hq' | rfl
        · exact hall q hq'
        · have hp : p ∈ ds.playlists := List.getElem?_mem hget
          obtain ⟨v, hv, hvlt⟩ := hall p hp
          exact ⟨v, hv, hvlt⟩

theorem storeIdInv_remove (ds : DataStore) (id : String) (b : Bool) (ds' : DataStore)
    (hinv : StoreIdInv ds) (h : removePlaylist ds id = some (b, ds')) : StoreIdInv ds' := by
  obtain ⟨h1, h2, hall⟩ := hinv
  unfold removePlaylist at h
  cases hlk : mapLookup ds.playlistMap id with
  | none =>
    simp only [hlk, Option.some.injEq, Prod.mk.injEq] at h
    obtain ⟨-, hds⟩ := h
    subst hds
    exact ⟨h1, h2, hall⟩
  | some idx =>
    simp only [hlk] at h
    cases hget : ds.playlists[ds.playlists.length - 1]? with
    | none =>
      simp only [hget] at h
      exact absurd h (by simp)
    | some lastP =>
      simp only [hget] at h
      by_cases hidx : idx < ds.playlists.length
      · rw [if_pos hidx] at h
        simp only [Option.some.injEq, Prod.mk.injEq] at h
        obtain ⟨-, hds⟩ := h
        subst hds
        refine ⟨h1, h2, ?_⟩
        intro q hq
        have hq1 : q ∈ ds.playlists.set idx lastP := List.mem_of_mem_take hq
        rcases List.mem_or_eq_of_mem_set hq1 with hq' | rfl
        · exact hall q hq'
        · exact hall q (List.getElem?_mem hget)
      · rw [if_neg hidx] at h
        exact absurd h (by simp)

theorem reachable_storeIdInv (ds : DataStore) (h : Reachable ds) : StoreIdInv ds := by
  induction h with
  | load us ps ss ds hnew h1 => exact storeIdInv_load us ps ss ds hnew h1
  | add ds userId songIds hr hb ih => exact storeIdInv_add ds userId songIds ih hb
  | addSong ds pid sid r ds' hr hcall ih => exact storeIdInv_addSong ds pid sid r ds' ih hcall
  | remove ds id b ds' hr hcall ih => exact storeIdInv_remove ds id b ds' ih hcall

/-- C10 (amended): for every store reachable from a successful load whose
counter did not wrap (maximum loaded id below 2^63 - 1) by store operations in
which `AddNewPlaylist` is only invoked while `nextPlaylistId` is below
2^63 - 1, the id returned by a successful `AddNewPlaylist` differs from the id
of every playlist present immediately before the call.  (Without the overflow
side conditions the property fails, see the counterexample.) -/
theorem c10_generated_ids_fresh (ds : DataStore) (h : Reachable ds)
    (userId : String) (songIds : List String) (newId : String)
    (hadd : (addNewPlaylist ds userId songIds).1 = Except.ok newId) :
    ∀ p ∈ ds.playlists, p.id ≠ newId := by
  obtain ⟨h1, h2, hall⟩ := reachable_storeIdInv ds h
  have hid : newId = intToString ds.nextPlaylistId := by
    unfold addNewPlaylist at hadd
    by_cases c1 : (mapLookup ds.userMap userId).isNone = true
    · rw [if_pos c1] at hadd; exact absurd hadd (by simp)
    · rw [if_neg c1] at hadd
      by_cases c2 : songIds.length = 0
      · rw [if_pos c2] at hadd; exact absurd hadd (by simp)
      · rw [if_neg c2] at hadd
        by_cases c3 : songIds.any (fun s => (mapLookup ds.songMap s).isNone) = true
        · rw [if_pos c3] at hadd; exact absurd hadd (by simp)
        · rw [if_neg c3] at hadd
          simp only [Except.ok.injEq] at hadd
          exact hadd.symm
  intro p hp hc
  obtain ⟨v, hv, hvlt⟩ := hall p hp
  rw [hc, hid, strconvAtoi_intToString ds.nextPlaylistId
    (by simp only [int64Min]; omega) h2] at hv
  simp only [Option.some.injEq] at hv
  omega

/-- The sample store is reachable (it is the result of a successful load with
counter 4). -/
theorem sampleStore_reachable : Reachable sampleStore :=
  Reachable.load sampleUsers samplePlaylists sampleSongs sampleStore
    sampleStore_built (by decide)

/-- Witness for C10 at a concrete input: against the reachable sample store,
`AddNewPlaylist` returns "4", which differs from the first resident playlist's
id "1". -/
theorem c10_witness : (⟨"1", "2", ["1", "2"]⟩ : Playlist).id ≠ "4" :=
  c10_generated_ids_fresh sampleStore sampleStore_reachable "1" ["1"] "4"
    (by decide) ⟨"1", "2", ["1", "2"]⟩ (by decide)

